import Mathlib

/-!
Shallow embedding of the query-composition and session-validation layer of
the miles-client repository (src/services/api.ts and
src/services/campaignApi.ts).

JavaScript-specific behaviour is modelled explicitly:
* truthiness of values (`0`, `""`, `null`, `undefined` are falsy),
* the `a || b` operator via `jsOr*` helpers,
* left-associative `+` mixing strings and numbers (string concatenation),
* optional object fields via `Option`,
* thrown exceptions via `Except`,
* the secure-store side effect of `validateAuthToken` by returning the
  new stored-token state alongside the boolean result.
-/

/-- A JSON-ish runtime value, as produced by `response.json()`.  Enough of
the JavaScript value universe to express the normalisations in the source. -/
inductive JValue : Type where
  | null : JValue
  | undef : JValue
  | bool : Bool → JValue
  | num : Int → JValue
  | str : String → JValue
  | arr : List JValue → JValue

/-- JavaScript truthiness for `JValue`. -/
def JValue.truthy : JValue → Bool
  | .null => false
  | .undef => false
  | .bool b => b
  | .num n => n != 0
  | .str s => s != ""
  | .arr _ => true

/-- Is the value a JavaScript number? -/
def JValue.isNum : JValue → Bool
  | .num _ => true
  | _ => false

/-- JavaScript `a || b` on a `JValue`. -/
def jsOrJ (a b : JValue) : JValue := if a.truthy then a else b

/-- JavaScript `a || b` where `a` is a possibly-absent number field and the
result is used as a number (`undefined` and `0` fall through to `b`). -/
def jsOrInt (a : Option Int) (b : Int) : Int :=
  match a with
  | some n => if n != 0 then n else b
  | none => b

/-- JavaScript `a || b` for a possibly-absent nonneg number field. -/
def jsOrNat (a : Option Nat) (b : Nat) : Nat :=
  match a with
  | some n => if n != 0 then n else b
  | none => b

/-- The decoded middle segment of a stored JWT-style token:
`JSON.parse(atob(...))` applied to the middle dot-separated segment, keeping only the `exp`
field (epoch seconds), which may be absent. -/
structure TokenPayload : Type where
  exp : Option Int
deriving Repr, DecidableEq

/-- A stored session token: its raw string (used for the `Cookie` header)
together with the result of decoding its payload segment.  `payload = none`
models a malformed token (base64/JSON decode throws). -/
structure StoredToken : Type where
  raw : String
  payload : Option TokenPayload
deriving Repr, DecidableEq

/-- Transport headers built by `createAuthHeaders`; only the token-bearing
cookie varies per call, so the static fields are omitted. -/
structure AuthHeaders : Type where
  cookie : String
deriving Repr, DecidableEq

/-- Model of `createAuthHeaders` (src/services/api.ts:46-60): reads the stored token,
throws `No authentication token available` if absent, otherwise returns the
fixed header set with `Cookie: token=<token>`. -/
def createAuthHeaders (stored : Option StoredToken) : Except String AuthHeaders :=
  match stored with
  | none => .error "No authentication token available"
  | some t => .ok { cookie := "token=" ++ t.raw }

/-- Model of `validateAuthToken` (src/services/api.ts:66-96).  Input: the stored
token state and the current wall clock in milliseconds (`Date.now()`).
Output: the boolean result and the stored-token state after the call
(`none` after the delete call on the stored key).

* no stored token: return `false`, storage untouched;
* malformed payload (decode throws): delete the token, return `false`;
* `Math.floor(Date.now()/1000) > payload.exp`: delete the token, return
  `false`;
* otherwise return `true` (note: a payload without `exp` compares
  `currentTime > undefined`, which is `false` in JavaScript, so such a
  token validates). -/
def validateAuthToken (stored : Option StoredToken) (nowMs : Nat) :
    Bool × Option StoredToken :=
  match stored with
  | none => (false, none)
  | some t =>
    match t.payload with
    | none => (false, none)
    | some p =>
      let currentTime : Int := (nowMs / 1000 : Nat)
      match p.exp with
      | some e => if currentTime > e then (false, none) else (true, some t)
      | none => (true, some t)

/-- Outcome of one `fetch` call, as seen by the calling code: a 2xx
response carrying a parsed body, a non-2xx response with its status and
body text, or a thrown transport error. -/
inductive NetResult (β : Type) : Type where
  | ok (body : β)
  | httpError (status : Nat) (bodyText : String)
  | transportError

/-- Generic UI-facing option `{value, label, color?}`
(src/services/api.ts:30-34). -/
structure FilterOption : Type where
  value : String
  label : String
  color : Option String := none
deriving Repr, DecidableEq

/-- One row of the `/api/Status/get` response body. -/
structure StatusRow : Type where
  rowId : String
  Status : String
  color : Option String
deriving Repr, DecidableEq

/-- One row of the `/api/Source/get` response body. -/
structure SourceRow : Type where
  rowId : String
  Source : String
deriving Repr, DecidableEq

/-- One row of the `/api/tags/get` response body. -/
structure TagRow : Type where
  Tag : String
deriving Repr, DecidableEq

/-- The `/api/tags/get` response body: rows plus the optional declared
totals `totalTags` and `total`. -/
structure TagsBody : Type where
  data : List TagRow
  totalTags : Option Int := none
  total : Option Int := none
deriving Repr, DecidableEq

/-- Result shape of `fetchTagOptions` (src/services/api.ts:36-40). -/
structure TagsResponse : Type where
  options : List FilterOption
  hasMore : Bool
  totalCount : Int
deriving Repr, DecidableEq

/-- Model of `fetchStatusOptions` (src/services/api.ts:218-241).  The whole body is
wrapped in `try/catch`, so a missing token (header building throws), a
non-OK response, or a transport error all yield `[]`. -/
def fetchStatusOptions (stored : Option StoredToken)
    (net : NetResult (List StatusRow)) : List FilterOption :=
  match createAuthHeaders stored with
  | .error _ => []
  | .ok _ =>
    match net with
    | .ok rows =>
      rows.map fun status =>
        { value := status.rowId, label := status.Status, color := status.color }
    | .httpError _ _ => []
    | .transportError => []

/-- Model of `fetchSourceOptions` (src/services/api.ts:246-268), same shape as
`fetchStatusOptions` but without a color field. -/
def fetchSourceOptions (stored : Option StoredToken)
    (net : NetResult (List SourceRow)) : List FilterOption :=
  match createAuthHeaders stored with
  | .error _ => []
  | .ok _ =>
    match net with
    | .ok rows =>
      rows.map fun source => { value := source.rowId, label := source.Source }
    | .httpError _ _ => []
    | .transportError => []

/-- The synthesized tag value of src/services/api.ts:298:
`tag.Tag + "::" + (page - 1) * limit + index` (quotes as in the source).  JavaScript `+` is
left-associative, so once the left operand is a string every further `+`
is string concatenation: the page offset `(page-1)*limit` and the index
are each rendered to decimal and concatenated, not numerically added. -/
def tagValue (page limit : Nat) (index : Nat) (label : String) : String :=
  label ++ "::" ++ toString (((page : Int) - 1) * (limit : Int)) ++ toString index

/-- Model of `fetchTagOptions` (src/services/api.ts:273-314).  `page`, `limit` and
`searchTerm` parameterise the query string; the body is wrapped in
`try/catch`, so every failure path yields
`{options := [], hasMore := false, totalCount := 0}`.  On a 2xx response
the rows are mapped to options with synthesized values, `hasMore` is
`tagOpts.length === limit`, and `totalCount` is
`data.totalTags || data.total || tagOpts.length`. -/
def fetchTagOptions (page limit : Nat) (_searchTerm : String)
    (stored : Option StoredToken) (net : NetResult TagsBody) : TagsResponse :=
  match createAuthHeaders stored with
  | .error _ => { options := [], hasMore := false, totalCount := 0 }
  | .ok _ =>
    match net with
    | .ok body =>
      let tagOpts : List FilterOption := body.data.mapIdx fun index tag =>
        { label := tag.Tag, value := tagValue page limit index tag.Tag }
      { options := tagOpts
        hasMore := tagOpts.length == limit
        totalCount := jsOrInt body.totalTags (jsOrInt body.total (tagOpts.length : Int)) }
    | .httpError _ _ => { options := [], hasMore := false, totalCount := 0 }
    | .transportError => { options := [], hasMore := false, totalCount := 0 }

/-- A JavaScript `Date` object, abstracted to its ISO-8601 rendering
(`toISOString`).  `Date` objects are always truthy. -/
structure DateV : Type where
  iso : String
deriving Repr, DecidableEq

/-- The caller-supplied user object, with the fields the source reads:
`user.id`, `user.role`, and `user.permissions?.lead` (an optional list of
capability strings). -/
structure User : Type where
  id : String
  role : String
  permissionsLead : Option (List String) := none
deriving Repr, DecidableEq

/-- Model of the capability test
`user.permissions?.lead?.includes("view_non_assigned") || ...includes("view_all")
|| user.role === "superAdmin"` of src/services/api.ts:120-124 (the same test
appears at lines 363-366; the source writes the literals in single
quotes). -/
def hasViewAllCapability (user : User) : Bool :=
  (match user.permissionsLead with
   | some caps => caps.contains "view_non_assigned" || caps.contains "view_all"
   | none => false) || user.role == "superAdmin"

/-- Model of `FilterOptions` (src/services/api.ts:4-13). -/
structure FilterOptions : Type where
  searchTerm : String
  searchBoxFilters : List String
  selectedAgents : List String
  selectedStatuses : List String
  selectedSources : List String
  selectedTags : List String
  dateRange : Option DateV × Option DateV
  dateFor : String
deriving Repr, DecidableEq

/-- Model of `LeadRequestOptions` (src/services/api.ts:15-18): caller overrides
spread over the computed scope; `none` models an absent field (no
override). -/
structure LeadRequestOptions : Type where
  includeNonAssigned : Option Bool := none
  viewAllLeads : Option Bool := none
deriving Repr, DecidableEq

/-- Model of `PaginationParams` (src/services/api.ts:20-23): zero-based `page`. -/
structure PaginationParams : Type where
  page : Nat
  limit : Nat
deriving Repr, DecidableEq

/-- The composed `/api/Lead/get` request body
(src/services/api.ts:136-155).  `includeNonAssigned` and `viewAllLeads`
are optional JSON fields: `none` means the key is absent from the wire
object. -/
structure LeadsRequestBody : Type where
  searchTerm : String
  selectedAgents : List String
  selectedStatuses : List String
  selectedSources : List String
  selectedTags : List String
  date : List String
  dateFor : String
  searchBoxFilters : List String
  page : Nat
  limit : String
  userid : String
  includeNonAssigned : Option Bool := none
  viewAllLeads : Option Bool := none
deriving Repr, DecidableEq

/-- The scope flags accumulated in the local `requestOptions` object of
`buildLeadsRequestBody`. -/
structure ScopeFlags : Type where
  includeNonAssigned : Option Bool := none
  viewAllLeads : Option Bool := none
deriving Repr, DecidableEq

/-- JavaScript object-spread override: a key present in the later object
wins, an absent key leaves the earlier value. -/
def spreadOpt (base override : Option Bool) : Option Bool :=
  match override with
  | some v => some v
  | none => base

/-- Model of `buildLeadsRequestBody` (src/services/api.ts:101-156).  Scope
resolution (lines 108-134), then the literal body (lines 136-155) with
`...requestOptions, ...options` modelled by `spreadOpt`. -/
def buildLeadsRequestBody (user : User) (filters : FilterOptions)
    (searchText : String) (pagination : PaginationParams)
    (options : LeadRequestOptions := {}) : LeadsRequestBody :=
  let scope : List String × ScopeFlags :=
    if filters.selectedAgents.length > 0 then
      (filters.selectedAgents,
        if filters.selectedAgents.contains "non-assigned" then
          { includeNonAssigned := some true
            viewAllLeads := if hasViewAllCapability user then some true else none }
        else {})
    else if user.role == "superAdmin" then
      ([], { viewAllLeads := some true })
    else
      ([user.id], {})
  { searchTerm := searchText.trim
    selectedAgents := scope.1
    selectedStatuses := filters.selectedStatuses
    selectedSources := filters.selectedSources
    selectedTags := filters.selectedTags
    date :=
      if (filters.dateRange.1).isSome || (filters.dateRange.2).isSome then
        ([filters.dateRange.1, filters.dateRange.2].filterMap id).map DateV.iso
      else []
    dateFor := if filters.dateFor == "" then "LeadIntroduction" else filters.dateFor
    searchBoxFilters := filters.searchBoxFilters
    page := pagination.page + 1
    limit := toString pagination.limit
    userid := user.id
    includeNonAssigned := spreadOpt (scope.2).includeNonAssigned options.includeNonAssigned
    viewAllLeads := spreadOpt (scope.2).viewAllLeads options.viewAllLeads }

/-- The `/api/Lead/get` response body: arbitrary JSON fields `data` and
`totalLeads` (each possibly absent, modelled as `JValue.undef`). -/
structure LeadsBody : Type where
  dataField : JValue
  totalLeadsField : JValue

/-- Result of `fetchLeads` after normalisation
(src/services/api.ts:209-212).  `totalLeads` is kept as a `JValue`
because `data.totalLeads || 0` does not coerce a truthy non-number. -/
structure LeadsResponse : Type where
  data : List JValue
  totalLeads : JValue

/-- Model of `fetchLeads` (src/services/api.ts:161-213): fails fast on a missing
or id-less user, then re-validates the session (throwing
`Authentication failed`), builds headers, posts the composed body, throws
on non-2xx, and normalises a 2xx body via
`Array.isArray(data.data) ? data.data : []` and `data.totalLeads || 0`. -/
def fetchLeads (user : Option User) (filters : FilterOptions)
    (searchText : String) (pagination : PaginationParams)
    (options : LeadRequestOptions) (storedTok : Option StoredToken)
    (nowMs : Nat) (net : NetResult LeadsBody) :
    Except String LeadsResponse :=
  match user with
  | none => .error "User not available"
  | some u =>
    if u.id == "" then .error "User not available"
    else if !(validateAuthToken storedTok nowMs).1 then .error "Authentication failed"
    else
      match createAuthHeaders (validateAuthToken storedTok nowMs).2 with
      | .error e => .error e
      | .ok _ =>
        let _requestBody := buildLeadsRequestBody u filters searchText pagination options
        match net with
        | .ok body =>
          .ok { data := match body.dataField with | .arr l => l | _ => []
                totalLeads := jsOrJ body.totalLeadsField (.num 0) }
        | .httpError status _ => .error ("Failed to fetch leads: " ++ toString status)
        | .transportError => .error "network request failed"

/-- One row of the `/api/staff/get?preserveHierarchy=true` response: the
fields the transform reads, with an optionally-present recursive
`subordinates` list (`none` models an absent/null field; `some []` a
present empty list, which is truthy in JavaScript). -/
inductive AgentRow : Type where
  | mk (rowId : String) (username : String) (email : Option String)
      (personalemail : Option String) (isVerified : Option Bool)
      (subordinates : Option (List AgentRow))

def AgentRow.rowId : AgentRow → String
  | .mk i _ _ _ _ _ => i

def AgentRow.username : AgentRow → String
  | .mk _ u _ _ _ _ => u

def AgentRow.email : AgentRow → Option String
  | .mk _ _ e _ _ _ => e

def AgentRow.personalemail : AgentRow → Option String
  | .mk _ _ _ p _ _ => p

def AgentRow.isVerified : AgentRow → Option Bool
  | .mk _ _ _ _ v _ => v

def AgentRow.subordinates : AgentRow → Option (List AgentRow)
  | .mk _ _ _ _ _ s => s

/-- A node of the UI tree produced by `transformAgentsDataToTreeSelect`:
`{value, title, label, email?, personalEmail?, isVerified?, children?}`.
`children = none` models an `undefined`/absent field. -/
inductive AgentNode : Type where
  | mk (value : String) (title : String) (label : String)
      (email : Option String) (personalEmail : Option String)
      (isVerified : Option Bool) (children : Option (List AgentNode))

def AgentNode.value : AgentNode → String
  | .mk v _ _ _ _ _ _ => v

def AgentNode.title : AgentNode → String
  | .mk _ t _ _ _ _ _ => t

def AgentNode.label : AgentNode → String
  | .mk _ _ l _ _ _ _ => l

def AgentNode.children : AgentNode → Option (List AgentNode)
  | .mk _ _ _ _ _ _ c => c

/-- Model of `transformAgentsDataToTreeSelect` (src/services/api.ts:319-340).  Each
row becomes a node keyed by its id with `title`/`label` set to its
username; a present `subordinates` list becomes a `children` list of
subordinate nodes carrying the extra identity fields, and a subordinate
that itself has subordinates gets its children from
`transformAgentsDataToTreeSelect([subordinate])[0].children` — the
recursive-through-singleton idiom of the source (the `[]` fallback branch
is unreachable: the transform of a singleton is a singleton). -/
def transformAgentsDataToTreeSelect : List AgentRow → List AgentNode
  | [] => []
  | .mk rowId username _em _pe _iv subs :: rest =>
    AgentNode.mk rowId username username none none none
      (match subs with
       | none => none
       | some l => some (l.attach.map fun sub =>
           AgentNode.mk sub.1.rowId sub.1.username sub.1.username
             sub.1.email sub.1.personalemail sub.1.isVerified
             (match sub.1.subordinates with
              | none => none
              | some _ =>
                match transformAgentsDataToTreeSelect [sub.1] with
                | n :: _ => n.children
                | [] => none)))
    :: transformAgentsDataToTreeSelect rest
termination_by data => sizeOf data
decreasing_by
  all_goals simp_wf
  have hmem := List.sizeOf_lt_of_mem sub.2
  omega

/-- The bare nesting skeleton of a hierarchy: only which nodes exist and
whether the child list of each one is absent (`none`), or present with the
skeletons of its elements.  Used to state that the transform preserves
the full shape — hence the full depth — of the hierarchy. -/
inductive Skel : Type where
  | mk (children : Option (List Skel))

/-- The skeleton of an agent row: its `subordinates` nesting, forgetting
all identity fields. -/
def AgentRow.skel : AgentRow → Skel
  | .mk _ _ _ _ _ subs =>
    .mk (match subs with
         | none => none
         | some l => some (l.attach.map fun sub => sub.1.skel))
termination_by r => sizeOf r
decreasing_by
  simp_wf
  have hmem := List.sizeOf_lt_of_mem sub.2
  omega

/-- The skeleton of a produced tree node: its `children` nesting. -/
def AgentNode.skel : AgentNode → Skel
  | .mk _ _ _ _ _ _ children =>
    .mk (match children with
         | none => none
         | some l => some (l.attach.map fun c => c.1.skel))
termination_by n => sizeOf n
decreasing_by
  simp_wf
  have hmem := List.sizeOf_lt_of_mem c.2
  omega

/-- The synthetic node prepended by `fetchAgents` for privileged users
(src/services/api.ts:368-377). -/
def nonAssignedNode : AgentNode :=
  .mk "non-assigned" "Non-Assigned Leads" "Non-Assigned Leads" none none none none

/-- Model of `fetchAgents` (src/services/api.ts:345-388): returns `[]` for a
missing or id-less user; the rest is wrapped in `try/catch`, so a missing
token, non-OK response or transport error also yield `[]`.  On a 2xx
response the rows are transformed to a tree and a synthetic
`non-assigned` node is prepended iff the user has a view-all capability
or is a superAdmin. -/
def fetchAgents (user : Option User) (stored : Option StoredToken)
    (net : NetResult (List AgentRow)) : List AgentNode :=
  match user with
  | none => []
  | some u =>
    if u.id == "" then []
    else
      match createAuthHeaders stored with
      | .error _ => []
      | .ok _ =>
        match net with
        | .ok rows =>
          let treeData := transformAgentsDataToTreeSelect rows
          if hasViewAllCapability u then nonAssignedNode :: treeData else treeData
        | .httpError _ _ => []
        | .transportError => []

/-- Model of `CampaignFilters` (src/services/campaignApi.ts:4-8): `page` and
`limit` are optional and defaulted with `|| 1` / `|| 50`, so an explicit
`0` also falls back. -/
structure CampaignFilters : Type where
  campaignName : String
  page : Option Nat := none
  limit : Option Nat := none
deriving Repr, DecidableEq

/-- The wire body posted to `/api/Lead/campaign`
(src/services/campaignApi.ts:45-49). -/
structure CampaignRequestBody : Type where
  campaignName : String
  page : Nat
  limit : Nat
deriving Repr, DecidableEq

/-- The `/api/Lead/campaign` response body. -/
structure CampaignLeadsBody : Type where
  message : String
  dataField : JValue
  totalLeadsField : JValue

/-- Result of `fetchCampaignLeads` after normalisation
(src/services/campaignApi.ts:76-80). -/
structure CampaignLeadsResponse : Type where
  message : String
  data : List JValue
  totalLeads : JValue

/-- An observable network effect: an HTTP request issued to a path. -/
inductive Event : Type where
  | netRequest (path : String)
deriving Repr, DecidableEq

/-- Model of `fetchCampaignLeads` (src/services/campaignApi.ts:36-81).  Returns the
result together with the list of network requests issued.  It performs NO
session validation: it throws early only on a falsy campaign name or when
`createAuthHeaders` finds no stored token; otherwise the POST is issued. -/
def fetchCampaignLeads (cf : CampaignFilters) (stored : Option StoredToken)
    (net : NetResult CampaignLeadsBody) :
    Except String CampaignLeadsResponse × List Event :=
  if cf.campaignName == "" then (.error "Campaign name is required", [])
  else
    match createAuthHeaders stored with
    | .error e => (.error e, [])
    | .ok _ =>
      let _requestBody : CampaignRequestBody :=
        { campaignName := cf.campaignName
          page := jsOrNat cf.page 1
          limit := jsOrNat cf.limit 50 }
      let events := [Event.netRequest "/api/Lead/campaign"]
      match net with
      | .ok body =>
        (.ok { message := body.message
               data := match body.dataField with | .arr l => l | _ => []
               totalLeads := jsOrJ body.totalLeadsField (.num 0) }, events)
      | .httpError status bodyText =>
        (.error ("Failed to fetch campaign leads: HTTP " ++ toString status
                  ++ " - " ++ bodyText), events)
      | .transportError => (.error "network request failed", events)

/-- One row of the `/api/campaigns/with-counts` response. -/
structure CampaignRow : Type where
  rowId : String
  Tag : String
  leadCount : Nat
  pendingLeadsCount : Option Nat := none
deriving Repr, DecidableEq

/-- Pagination metadata of the `/api/campaigns/with-counts` response. -/
structure CampaignPagination : Type where
  currentPage : Nat
  totalPages : Nat
  totalCount : Nat
  hasNextPage : Bool
  hasPrevPage : Bool
deriving Repr, DecidableEq

/-- The `/api/campaigns/with-counts` response body: `result.data || []`
is truthiness-defaulted, `pagination` passes through unchanged. -/
structure CampaignsBody : Type where
  dataField : Option (List CampaignRow)
  pagination : Option CampaignPagination
deriving Repr, DecidableEq

/-- Result of `fetchCampaignsWithCounts`
(src/services/campaignApi.ts:152-155). -/
structure CampaignsWithCountsResponse : Type where
  data : List CampaignRow
  pagination : Option CampaignPagination
deriving Repr, DecidableEq

/-- Model of `fetchCampaignsWithCounts` (src/services/campaignApi.ts:86-164).
Returns the result, the network requests issued, and the stored-token
state after the call.  It calls `validateAuthToken` but IGNORES the
boolean result (the `throw` on failure is commented out in the source
"for debugging"); `createAuthHeaders` then re-reads the storage that
validation may just have cleared.  The GET races a 30-second timeout
(`timedOut = true` models losing the race: the request was issued but
the caller stops waiting and the error propagates). -/
def fetchCampaignsWithCounts (page limit : Nat) (stored : Option StoredToken)
    (nowMs : Nat) (timedOut : Bool) (net : NetResult CampaignsBody) :
    Except String CampaignsWithCountsResponse × List Event × Option StoredToken :=
  let validated := validateAuthToken stored nowMs
  match createAuthHeaders validated.2 with
  | .error e => (.error e, [], validated.2)
  | .ok _ =>
    let _page := page
    let _limit := limit
    let events := [Event.netRequest "/api/campaigns/with-counts"]
    if timedOut then (.error "Request timeout after 30s", events, validated.2)
    else
      match net with
      | .ok body =>
        (.ok { data := body.dataField.getD [], pagination := body.pagination },
          events, validated.2)
      | .httpError status bodyText =>
        (.error ("Failed to fetch campaigns: HTTP " ++ toString status
                  ++ " - " ++ bodyText), events, validated.2)
      | .transportError => (.error "network request failed", events, validated.2)

/-- A valid sample token used by concrete witnesses: it expires far in the
future (epoch second 4102444800 is in the year 2100). -/
def sampleValidToken : StoredToken :=
  { raw := "tok", payload := some { exp := some 4102444800 } }

/-- An expired sample token: `exp = 0` lies in the past of any positive
clock. -/
def sampleExpiredToken : StoredToken :=
  { raw := "tok", payload := some { exp := some 0 } }

/-- C4: for every pagination input, in the composed leads request body
the `page` field equals `pagination.page + 1` (zero-based converted to
one-based) and its `limit` field is the decimal string rendering of
`pagination.limit`, not a number. -/
theorem composed_page_one_based_and_limit_string (user : User)
    (filters : FilterOptions) (searchText : String)
    (pagination : PaginationParams) (options : LeadRequestOptions) :
    (buildLeadsRequestBody user filters searchText pagination options).page
        = pagination.page + 1 ∧
      (buildLeadsRequestBody user filters searchText pagination options).limit
        = toString pagination.limit := by
  constructor <;> rfl

/-- C5: `validateAuthToken` with no stored token returns `false` and
leaves storage untouched (and, being a total function, throws nothing);
with a malformed payload, or with the current time floored to seconds
exceeding `exp`, it deletes the stored token and returns `false`;
otherwise it returns `true` — and the stored token is deleted in exactly
the expired and malformed cases. -/
theorem validateAuthToken_cases (stored : Option StoredToken) (nowMs : Nat) :
    (stored = none → validateAuthToken stored nowMs = (false, none)) ∧
      (∀ t, stored = some t → t.payload = none →
        validateAuthToken stored nowMs = (false, none)) ∧
      (∀ t p e, stored = some t → t.payload = some p → p.exp = some e →
        (((nowMs / 1000 : Nat) : Int) > e →
          validateAuthToken stored nowMs = (false, none)) ∧
        (¬ (((nowMs / 1000 : Nat) : Int) > e) →
          validateAuthToken stored nowMs = (true, stored))) ∧
      ((stored ≠ none ∧ (validateAuthToken stored nowMs).2 = none) ↔
        (∃ t, stored = some t ∧
          (t.payload = none ∨
            ∃ p e, t.payload = some p ∧ p.exp = some e ∧
              (((nowMs / 1000 : Nat) : Int) > e)))) := by
  have hif : ∀ (raw : String) (e : Int),
      validateAuthToken (some ⟨raw, some ⟨some e⟩⟩) nowMs =
        if ((nowMs / 1000 : Nat) : Int) > e then (false, none)
        else (true, some ⟨raw, some ⟨some e⟩⟩) := fun _ _ => rfl
  refine ⟨fun h => by subst h; rfl, fun t ht hp => ?_, fun t p e ht hp he => ?_, ?_⟩
  · subst ht
    obtain ⟨raw, payload⟩ := t
    cases hp
    rfl
  · subst ht
    obtain ⟨raw, payload⟩ := t
    cases hp
    obtain ⟨pe⟩ := p
    cases he
    refine ⟨fun hgt => ?_, fun hle => ?_⟩
    · rw [hif, if_pos hgt]
    · rw [hif, if_neg hle]
  · constructor
    · rintro ⟨hne, hdel⟩
      cases stored with
      | none => exact absurd rfl hne
      | some t =>
        refine ⟨t, rfl, ?_⟩
        obtain ⟨raw, payload⟩ := t
        cases payload with
        | none => exact Or.inl rfl
        | some p =>
          obtain ⟨pe⟩ := p
          cases pe with
          | none =>
            have hred : (validateAuthToken (some ⟨raw, some ⟨none⟩⟩) nowMs).2
                = some ⟨raw, some ⟨none⟩⟩ := rfl
            rw [hred] at hdel
            exact Option.noConfusion hdel
          | some e =>
            by_cases hgt : ((nowMs / 1000 : Nat) : Int) > e
            · exact Or.inr ⟨⟨some e⟩, e, rfl, rfl, hgt⟩
            · have hred : (validateAuthToken (some ⟨raw, some ⟨some e⟩⟩) nowMs).2
                  = some ⟨raw, some ⟨some e⟩⟩ := by
                rw [hif, if_neg hgt]
              rw [hred] at hdel
              exact Option.noConfusion hdel
    · rintro ⟨t, ht, hbad⟩
      subst ht
      refine ⟨fun h => Option.noConfusion h, ?_⟩
      obtain ⟨raw, payload⟩ := t
      rcases hbad with hp | ⟨p, e, hp, he, hgt⟩
      · cases hp
        rfl
      · cases hp
        obtain ⟨pe⟩ := p
        cases he
        rw [hif, if_pos hgt]

/-- Witness for C5 at concrete inputs: an absent token (clock at 2000 s),
a malformed token, an expired token (`exp = 0`, clock past it), and a
valid token (`exp` in 2100). -/
theorem validateAuthToken_cases_witness :
    validateAuthToken none 2000000 = (false, none) ∧
      validateAuthToken (some { raw := "tok", payload := none }) 2000000
        = (false, none) ∧
      validateAuthToken (some sampleExpiredToken) 2000000 = (false, none) ∧
      validateAuthToken (some sampleValidToken) 2000000
        = (true, some sampleValidToken) := by
  refine ⟨(validateAuthToken_cases none 2000000).1 rfl, ?_, ?_, ?_⟩
  · exact (validateAuthToken_cases (some { raw := "tok", payload := none })
      2000000).2.1 _ rfl rfl
  · exact (((validateAuthToken_cases (some sampleExpiredToken) 2000000).2.2.1
      sampleExpiredToken { exp := some 0 } 0 rfl rfl rfl).1 (by decide))
  · exact (((validateAuthToken_cases (some sampleValidToken) 2000000).2.2.1
      sampleValidToken { exp := some 4102444800 } 4102444800 rfl rfl rfl).2
      (by decide))

/-- C6: for every successful tag fetch, `hasMore` is true if and only if
the number of returned rows equals the requested limit (a heuristic: it
is true on a full page even when that page is the last one). -/
theorem tags_hasMore_iff_full_page (page limit : Nat) (s : String)
    (tok : StoredToken) (body : TagsBody) :
    (fetchTagOptions page limit s (some tok) (.ok body)).hasMore = true ↔
      body.data.length = limit := by
  simp [fetchTagOptions, createAuthHeaders]

/-- C7 counterexample: a 2xx tags response that declares `totalTags: 0`
(present!) with `total: 5` yields `totalCount = 5`, not the declared
`totalTags` value `0`: the fallback is decided by JavaScript truthiness
(`data.totalTags || data.total || rows.length`), not by field presence. -/
theorem tags_totalCount_presence_counterexample :
    (fetchTagOptions 1 2 "" (some sampleValidToken)
        (.ok { data := [], totalTags := some 0, total := some 5 })).totalCount = 5 ∧
      (fetchTagOptions 1 2 "" (some sampleValidToken)
        (.ok { data := [], totalTags := some 0, total := some 5 })).totalCount ≠ 0 := by
  constructor <;> decide

/-- The amended C7 totalCount selection, written from the words of the
amended claim: `totalCount` equals the declared `totalTags` field when present
and nonzero, else the `total` field when present and nonzero, and falls
back to the row count of the current page when both are absent or zero
(zero-valued declared totals fall through, by JavaScript truthiness). -/
def amendedTotalCountSpec (totalTags total : Option Int) (rowCount : Int) : Int :=
  match totalTags with
  | some n =>
    if n ≠ 0 then n
    else
      match total with
      | some m => if m ≠ 0 then m else rowCount
      | none => rowCount
  | none =>
    match total with
    | some m => if m ≠ 0 then m else rowCount
    | none => rowCount

/-- C7 amended: for every successful tag fetch, `totalCount` follows the
truthiness-based selection `totalTags || total || rows.length`: a present
but zero-valued declared total falls through to the next fallback. -/
theorem tags_totalCount_amended (page limit : Nat) (s : String)
    (tok : StoredToken) (body : TagsBody) :
    (fetchTagOptions page limit s (some tok) (.ok body)).totalCount =
      amendedTotalCountSpec body.totalTags body.total body.data.length := by
  simp only [fetchTagOptions, createAuthHeaders, amendedTotalCountSpec, jsOrInt,
    List.length_mapIdx]
  cases body.totalTags with
  | none =>
    cases body.total with
    | none => rfl
    | some m => by_cases hm : m = 0 <;> simp [hm]
  | some n =>
    by_cases hn : n = 0
    · cases body.total with
      | none => simp [hn]
      | some m => by_cases hm : m = 0 <;> simp [hn, hm]
    · simp [hn]

/-- When `validateAuthToken` reports failure, the stored token is absent
afterwards (it either never existed or was deleted). -/
theorem validateAuthToken_false_clears (stored : Option StoredToken)
    (nowMs : Nat) (h : (validateAuthToken stored nowMs).1 = false) :
    (validateAuthToken stored nowMs).2 = none := by
  cases stored with
  | none => rfl
  | some t =>
    obtain ⟨raw, payload⟩ := t
    cases payload with
    | none => rfl
    | some p =>
      obtain ⟨pe⟩ := p
      cases pe with
      | none => exact absurd h (by simp [validateAuthToken])
      | some e =>
        by_cases hgt : ((nowMs / 1000 : Nat) : Int) > e
        · show (if ((nowMs / 1000 : Nat) : Int) > e then
              ((false, none) : Bool × Option StoredToken)
            else (true, some ⟨raw, some ⟨some e⟩⟩)).2 = none
          rw [if_pos hgt]
        · exact absurd h (by
            show (if ((nowMs / 1000 : Nat) : Int) > e then
                ((false, none) : Bool × Option StoredToken)
              else (true, some ⟨raw, some ⟨some e⟩⟩)).1 ≠ false
            rw [if_neg hgt]
            simp)

/-- When `validateAuthToken` reports success, the stored token is left in
place. -/
theorem validateAuthToken_true_keeps (stored : Option StoredToken)
    (nowMs : Nat) (h : (validateAuthToken stored nowMs).1 = true) :
    (validateAuthToken stored nowMs).2 = stored := by
  cases stored with
  | none => exact absurd h (by simp [validateAuthToken])
  | some t =>
    obtain ⟨raw, payload⟩ := t
    cases payload with
    | none => exact absurd h (by simp [validateAuthToken])
    | some p =>
      obtain ⟨pe⟩ := p
      cases pe with
      | none => rfl
      | some e =>
        by_cases hgt : ((nowMs / 1000 : Nat) : Int) > e
        · exact absurd h (by
            show (if ((nowMs / 1000 : Nat) : Int) > e then
                ((false, none) : Bool × Option StoredToken)
              else (true, some ⟨raw, some ⟨some e⟩⟩)).1 ≠ true
            rw [if_pos hgt]
            simp)
        · show (if ((nowMs / 1000 : Nat) : Int) > e then
              ((false, none) : Bool × Option StoredToken)
            else (true, some ⟨raw, some ⟨some e⟩⟩)).2 = some ⟨raw, some ⟨some e⟩⟩
          rw [if_neg hgt]

/-- C1 counterexample: a successful fetch with one-based page 1, limit 2
and rows labeled A, B synthesizes values `A::00` and `B::01` — string
concatenation of the page offset and index — whereas the formula of the claim,
`label :: ((page-1)*limit + index)` demands `B::1` for the second row. -/
theorem tag_value_offset_sum_counterexample :
    ((fetchTagOptions 1 2 "" (some sampleValidToken)
        (.ok { data := [{ Tag := "A" }, { Tag := "B" }] })).options.map
          FilterOption.value = ["A::00", "B::01"]) ∧
      "B::01" ≠ "B" ++ "::" ++ toString ((1 - 1) * 2 + 1 : Int) := by
  exact ⟨rfl, by decide⟩

/-- C1 amended: for every successful tag fetch, the value of the i-th
option is the label of the row, then `::`, then the decimal rendering of
`(page-1)*limit`, then the decimal rendering of `i` — the two numbers are
concatenated as strings (JavaScript left-associative `+`), not added.
The four values of the two consecutive limit-2 fetches with rows A,B then
A,C are still pairwise distinct. -/
theorem tag_value_synthesis_amended (page limit : Nat) (s : String)
    (tok : StoredToken) (body : TagsBody) :
    ((fetchTagOptions page limit s (some tok) (.ok body)).options.map
        FilterOption.value
      = body.data.mapIdx fun index tag =>
          tag.Tag ++ "::" ++ toString (((page : Int) - 1) * (limit : Int))
            ++ toString index) ∧
      (((fetchTagOptions 1 2 s (some tok)
            (.ok { data := [{ Tag := "A" }, { Tag := "B" }] })).options.map
              FilterOption.value)
        ++ ((fetchTagOptions 2 2 s (some tok)
            (.ok { data := [{ Tag := "A" }, { Tag := "C" }] })).options.map
              FilterOption.value)).Nodup := by
  constructor
  · simp [fetchTagOptions, createAuthHeaders, tagValue, List.mapIdx_eq_enum_map,
      List.map_map]
  · have hconcrete : (((fetchTagOptions 1 2 s (some tok)
          (.ok { data := [{ Tag := "A" }, { Tag := "B" }] })).options.map
            FilterOption.value)
        ++ ((fetchTagOptions 2 2 s (some tok)
            (.ok { data := [{ Tag := "A" }, { Tag := "C" }] })).options.map
              FilterOption.value))
        = ["A::00", "B::01", "A::20", "C::21"] := rfl
    rw [hconcrete]
    decide

/-- Did this fetch outcome fail (non-2xx response or transport error)? -/
def NetResult.failed {β : Type} : NetResult β → Bool
  | .ok _ => false
  | .httpError _ _ => true
  | .transportError => true

/-- C8: the best-effort option fetchers never propagate an error: with a
missing token, a non-2xx response, or a transport failure, each returns
its empty result (being total Lean functions, they cannot throw at all;
the `try/catch` of the source is what makes the originals total). -/
theorem option_fetchers_degrade_to_empty (stored : Option StoredToken)
    (page limit : Nat) (s : String) (user : Option User)
    (netStatus : NetResult (List StatusRow))
    (netSource : NetResult (List SourceRow)) (netTags : NetResult TagsBody)
    (netAgents : NetResult (List AgentRow)) :
    ((stored = none ∨ netStatus.failed = true) →
      fetchStatusOptions stored netStatus = []) ∧
      ((stored = none ∨ netSource.failed = true) →
        fetchSourceOptions stored netSource = []) ∧
      ((stored = none ∨ netTags.failed = true) →
        fetchTagOptions page limit s stored netTags
          = { options := [], hasMore := false, totalCount := 0 }) ∧
      ((stored = none ∨ netAgents.failed = true) →
        fetchAgents user stored netAgents = []) := by
  refine ⟨?_, ?_, ?_, ?_⟩
  · rintro (rfl | hf)
    · rfl
    · cases netStatus with
      | ok _ => exact absurd hf (by simp [NetResult.failed])
      | httpError _ _ => cases stored <;> rfl
      | transportError => cases stored <;> rfl
  · rintro (rfl | hf)
    · rfl
    · cases netSource with
      | ok _ => exact absurd hf (by simp [NetResult.failed])
      | httpError _ _ => cases stored <;> rfl
      | transportError => cases stored <;> rfl
  · rintro (rfl | hf)
    · rfl
    · cases netTags with
      | ok _ => exact absurd hf (by simp [NetResult.failed])
      | httpError _ _ => cases stored <;> rfl
      | transportError => cases stored <;> rfl
  · rintro (rfl | hf)
    · cases user with
      | none => rfl
      | some u =>
        simp only [fetchAgents]
        split <;> rfl
    · cases netAgents with
      | ok _ => exact absurd hf (by simp [NetResult.failed])
      | httpError _ _ =>
        cases user with
        | none => rfl
        | some u =>
          simp only [fetchAgents]
          split
          · rfl
          · cases stored <;> rfl
      | transportError =>
        cases user with
        | none => rfl
        | some u =>
          simp only [fetchAgents]
          split
          · rfl
          · cases stored <;> rfl

/-- Witness for C8 at concrete inputs: a missing token for the status
fetcher, a 500 response for the source fetcher, a transport error for the
tag fetcher, and a 500 response (with a present user and token) for the
agents fetcher. -/
theorem option_fetchers_degrade_to_empty_witness :
    fetchStatusOptions none (.ok []) = [] ∧
      fetchSourceOptions (some sampleValidToken) (.httpError 500 "boom") = [] ∧
      fetchTagOptions 1 50 "" (some sampleValidToken) .transportError
        = { options := [], hasMore := false, totalCount := 0 } ∧
      fetchAgents (some { id := "u1", role := "agent" }) (some sampleValidToken)
        (.httpError 500 "boom") = [] := by
  obtain ⟨h1, h2, h3, h4⟩ := option_fetchers_degrade_to_empty none 1 50 ""
    (some { id := "u1", role := "agent" }) (.ok []) (.httpError 500 "boom")
    .transportError (.httpError 500 "boom")
  refine ⟨h1 (Or.inl rfl), ?_, ?_, ?_⟩
  · exact (option_fetchers_degrade_to_empty (some sampleValidToken) 1 50 ""
      (some { id := "u1", role := "agent" }) (.ok []) (.httpError 500 "boom")
      .transportError (.httpError 500 "boom")).2.1 (Or.inr rfl)
  · exact (option_fetchers_degrade_to_empty (some sampleValidToken) 1 50 ""
      (some { id := "u1", role := "agent" }) (.ok []) (.httpError 500 "boom")
      .transportError (.httpError 500 "boom")).2.2.1 (Or.inr rfl)
  · exact (option_fetchers_degrade_to_empty (some sampleValidToken) 1 50 ""
      (some { id := "u1", role := "agent" }) (.ok []) (.httpError 500 "boom")
      .transportError (.httpError 500 "boom")).2.2.2 (Or.inr rfl)

/-- C2 counterexample: with a stored but expired token (so session
validation fails), `fetchCampaignLeads` — which performs no session
validation at all — still issues its network request. -/
theorem campaign_leads_reaches_network_counterexample :
    (validateAuthToken (some sampleExpiredToken) 2000000).1 = false ∧
      (fetchCampaignLeads { campaignName := "summer" } (some sampleExpiredToken)
          (.ok { message := "ok", dataField := .arr [], totalLeadsField := .num 3 })).2
        = [Event.netRequest "/api/Lead/campaign"] := by
  exact ⟨rfl, rfl⟩

/-- C2 amended: `fetchCampaignsWithCounts` re-validates the session, and
although it ignores the boolean result (its failure `throw` is commented
out in the source), a failed validation leaves no stored token, so header
building fails with `No authentication token available` before any
network request.  `fetchCampaignLeads`, by contrast, never validates: it
fails without a network call only when no token is stored at all (or the
campaign name is empty), and reaches the network whenever any token is
present — expired or malformed included. -/
theorem campaign_fetch_validation_amended :
    (∀ (page limit : Nat) (stored : Option StoredToken) (nowMs : Nat)
        (timedOut : Bool) (net : NetResult CampaignsBody),
      (validateAuthToken stored nowMs).1 = false →
        fetchCampaignsWithCounts page limit stored nowMs timedOut net
          = (.error "No authentication token available", [], none)) ∧
      (∀ (cf : CampaignFilters) (net : NetResult CampaignLeadsBody),
        (fetchCampaignLeads cf none net).2 = [] ∧
          (fetchCampaignLeads cf none net).1.isOk = false) ∧
      (∀ (cf : CampaignFilters) (tok : StoredToken)
          (net : NetResult CampaignLeadsBody), cf.campaignName ≠ "" →
        (fetchCampaignLeads cf (some tok) net).2
          = [Event.netRequest "/api/Lead/campaign"]) := by
  refine ⟨?_, ?_, ?_⟩
  · intro page limit stored nowMs timedOut net h
    have hclear := validateAuthToken_false_clears stored nowMs h
    simp [fetchCampaignsWithCounts, hclear, createAuthHeaders]
  · intro cf net
    by_cases hname : cf.campaignName = ""
    · simp [fetchCampaignLeads, hname, Except.isOk, Except.toBool]
    · simp [fetchCampaignLeads, hname, createAuthHeaders, Except.isOk,
        Except.toBool]
  · intro cf tok net hname
    cases net <;>
      simp [fetchCampaignLeads, hname, createAuthHeaders]

/-- Witness for C2 amended at concrete inputs: an expired token makes
`fetchCampaignsWithCounts` fail with the missing-token error and no
network request; `fetchCampaignLeads` with no stored token issues no
request and fails; with a valid token it issues exactly its request. -/
theorem campaign_fetch_validation_amended_witness :
    fetchCampaignsWithCounts 1 100 (some sampleExpiredToken) 2000000 false
        (.ok { dataField := none, pagination := none })
      = (.error "No authentication token available", [], none) ∧
      (fetchCampaignLeads { campaignName := "summer" } none .transportError).2
        = [] ∧
      (fetchCampaignLeads { campaignName := "summer" } (some sampleValidToken)
          (.ok { message := "ok", dataField := .arr [], totalLeadsField := .num 3 })).2
        = [Event.netRequest "/api/Lead/campaign"] := by
  refine ⟨?_, ?_, ?_⟩
  · exact campaign_fetch_validation_amended.1 1 100 (some sampleExpiredToken)
      2000000 false (.ok { dataField := none, pagination := none }) rfl
  · exact (campaign_fetch_validation_amended.2.1
      { campaignName := "summer" } .transportError).1
  · exact campaign_fetch_validation_amended.2.2
      { campaignName := "summer" } sampleValidToken
      (.ok { message := "ok", dataField := .arr [], totalLeadsField := .num 3 })
      (by decide)

/-- Restatement of the capability test in the vocabulary of the claim: the user
holds `view_non_assigned` or `view_all` in `permissions.lead`, or has
role `superAdmin`. -/
theorem hasViewAllCapability_iff (user : User) :
    hasViewAllCapability user = true ↔
      ((∃ caps, user.permissionsLead = some caps ∧
          ("view_non_assigned" ∈ caps ∨ "view_all" ∈ caps)) ∨
        user.role = "superAdmin") := by
  unfold hasViewAllCapability
  cases h : user.permissionsLead with
  | none => simp
  | some caps => simp [List.elem_iff]

/-- C3: scope resolution in the composed leads request (with no caller
overrides) follows the priority order, first match wins.  Non-empty
selection: `selectedAgents` is the selection verbatim,
`includeNonAssigned` is set (to `true`) exactly when `non-assigned` is
selected, and `viewAllLeads` is set (to `true`) iff additionally the
user holds `view_non_assigned` or `view_all` or has role `superAdmin`.
Empty selection and role `superAdmin`: empty agent list, `viewAllLeads`
set.  Otherwise: the agent list is `[user.id]` with no flags. -/
theorem scope_resolution_priority (user : User) (filters : FilterOptions)
    (searchText : String) (pagination : PaginationParams) :
    (filters.selectedAgents ≠ [] →
      (buildLeadsRequestBody user filters searchText pagination {}).selectedAgents
          = filters.selectedAgents ∧
        ((buildLeadsRequestBody user filters searchText pagination
            {}).includeNonAssigned = some true ↔
          "non-assigned" ∈ filters.selectedAgents) ∧
        ((buildLeadsRequestBody user filters searchText pagination
            {}).viewAllLeads = some true ↔
          ("non-assigned" ∈ filters.selectedAgents ∧
            ((∃ caps, user.permissionsLead = some caps ∧
                ("view_non_assigned" ∈ caps ∨ "view_all" ∈ caps)) ∨
              user.role = "superAdmin")))) ∧
      (filters.selectedAgents = [] → user.role = "superAdmin" →
        (buildLeadsRequestBody user filters searchText pagination
            {}).selectedAgents = [] ∧
          (buildLeadsRequestBody user filters searchText pagination
            {}).viewAllLeads = some true ∧
          (buildLeadsRequestBody user filters searchText pagination
            {}).includeNonAssigned = none) ∧
      (filters.selectedAgents = [] → user.role ≠ "superAdmin" →
        (buildLeadsRequestBody user filters searchText pagination
            {}).selectedAgents = [user.id] ∧
          (buildLeadsRequestBody user filters searchText pagination
            {}).includeNonAssigned = none ∧
          (buildLeadsRequestBody user filters searchText pagination
            {}).viewAllLeads = none) := by
  refine ⟨fun hne => ?_, fun hemp hrole => ?_, fun hemp hrole => ?_⟩
  · have hlen : filters.selectedAgents.length > 0 :=
      List.length_pos.mpr hne
    by_cases hc : filters.selectedAgents.contains "non-assigned"
    · by_cases hv : hasViewAllCapability user
      · refine ⟨?_, ?_, ?_⟩ <;>
          simp [buildLeadsRequestBody, hlen, hc, hv, spreadOpt,
            List.elem_iff.mp hc, (hasViewAllCapability_iff user).mp hv]
      · have hv' : ¬ ((∃ caps, user.permissionsLead = some caps ∧
            ("view_non_assigned" ∈ caps ∨ "view_all" ∈ caps)) ∨
              user.role = "superAdmin") :=
          fun h => hv ((hasViewAllCapability_iff user).mpr h)
        refine ⟨?_, ?_, ?_⟩ <;>
          simp [buildLeadsRequestBody, hlen, hc, hv, spreadOpt,
            List.elem_iff.mp hc, hv']
    · have hc' : "non-assigned" ∉ filters.selectedAgents :=
        fun h => hc (List.elem_iff.mpr h)
      refine ⟨?_, ?_, ?_⟩ <;>
        simp [buildLeadsRequestBody, hlen, hc, spreadOpt, hc']
  · have hlen : ¬ filters.selectedAgents.length > 0 := by simp [hemp]
    refine ⟨?_, ?_, ?_⟩ <;>
      simp [buildLeadsRequestBody, hlen, hrole, spreadOpt]
  · have hlen : ¬ filters.selectedAgents.length > 0 := by simp [hemp]
    have hrole' : (user.role == "superAdmin") = false := by
      simpa using hrole
    refine ⟨?_, ?_, ?_⟩ <;>
      simp [buildLeadsRequestBody, hlen, hrole', spreadOpt]

/-- A minimal concrete filter set used by witnesses, varying only in the
selected agents. -/
def sampleFilters (agents : List String) : FilterOptions :=
  { searchTerm := "", searchBoxFilters := ["LeadInfo"], selectedAgents := agents,
    selectedStatuses := [], selectedSources := [], selectedTags := [],
    dateRange := (none, none), dateFor := "" }

/-- Witness for C3 at concrete inputs: a non-privileged user selecting
`non-assigned` gets `includeNonAssigned` but not `viewAllLeads`; a
superAdmin with the same selection gets `viewAllLeads`; a superAdmin with
an empty selection gets an empty agent list with `viewAllLeads`; a
regular user with an empty selection is self-scoped. -/
theorem scope_resolution_priority_witness :
    (buildLeadsRequestBody { id := "u1", role := "agent" }
        (sampleFilters ["non-assigned"]) "" ⟨0, 10⟩ {}).includeNonAssigned
      = some true ∧
    ¬ (buildLeadsRequestBody { id := "u1", role := "agent" }
        (sampleFilters ["non-assigned"]) "" ⟨0, 10⟩ {}).viewAllLeads
      = some true ∧
    (buildLeadsRequestBody { id := "sa", role := "superAdmin" }
        (sampleFilters ["non-assigned"]) "" ⟨0, 10⟩ {}).viewAllLeads
      = some true ∧
    (buildLeadsRequestBody { id := "sa", role := "superAdmin" }
        (sampleFilters []) "" ⟨0, 10⟩ {}).selectedAgents = [] ∧
    (buildLeadsRequestBody { id := "sa", role := "superAdmin" }
        (sampleFilters []) "" ⟨0, 10⟩ {}).viewAllLeads = some true ∧
    (buildLeadsRequestBody { id := "u1", role := "agent" }
        (sampleFilters []) "" ⟨0, 10⟩ {}).selectedAgents = ["u1"] := by
  refine ⟨?_, ?_, ?_, ?_, ?_, ?_⟩
  · exact ((scope_resolution_priority { id := "u1", role := "agent" }
      (sampleFilters ["non-assigned"]) "" ⟨0, 10⟩).1 (by decide)).2.1.mpr
      (by decide)
  · intro h
    have hiff := ((scope_resolution_priority { id := "u1", role := "agent" }
      (sampleFilters ["non-assigned"]) "" ⟨0, 10⟩).1 (by decide)).2.2.mp h
    rcases hiff with ⟨_, ⟨caps, hcaps, _⟩ | hrole⟩
    · exact Option.noConfusion hcaps
    · exact absurd hrole (by decide)
  · exact ((scope_resolution_priority { id := "sa", role := "superAdmin" }
      (sampleFilters ["non-assigned"]) "" ⟨0, 10⟩).1 (by decide)).2.2.mpr
      ⟨by decide, Or.inr rfl⟩
  · exact ((scope_resolution_priority { id := "sa", role := "superAdmin" }
      (sampleFilters []) "" ⟨0, 10⟩).2.1 rfl rfl).1
  · exact ((scope_resolution_priority { id := "sa", role := "superAdmin" }
      (sampleFilters []) "" ⟨0, 10⟩).2.1 rfl rfl).2.1
  · exact ((scope_resolution_priority { id := "u1", role := "agent" }
      (sampleFilters []) "" ⟨0, 10⟩).2.2 rfl (by decide)).1

/-- C10 counterexample: a 2xx leads response whose `totalLeads` field is
the truthy string `"many"` passes through `data.totalLeads || 0`
unchanged, so the returned `totalLeads` is not a number. -/
theorem leads_totalLeads_not_number_counterexample :
    fetchLeads (some { id := "u1", role := "agent" }) (sampleFilters []) ""
        ⟨0, 10⟩ {} (some sampleValidToken) 2000000
        (.ok { dataField := .arr [], totalLeadsField := .str "many" })
      = .ok { data := [], totalLeads := .str "many" } ∧
      (JValue.str "many").isNum = false := by
  exact ⟨rfl, rfl⟩

/-- C10 amended: for every 2xx leads response (reached with a valid
session and user), `data` is always a list — empty whenever the `data`
field of the body is not an array — and `totalLeads` is that field when
truthy (whatever its runtime type) and the number `0` when absent or
falsy; hence `totalLeads` is a number whenever the backend sends a number
or a falsy/absent value, but a truthy non-number passes through. -/
theorem leads_normalization_amended (u : User) (filters : FilterOptions)
    (searchText : String) (pagination : PaginationParams)
    (options : LeadRequestOptions) (tok : StoredToken) (nowMs : Nat)
    (body : LeadsBody) (hval : (validateAuthToken (some tok) nowMs).1 = true)
    (hid : u.id ≠ "") :
    ∃ r, fetchLeads (some u) filters searchText pagination options (some tok)
        nowMs (.ok body) = .ok r ∧
      r.data = (match body.dataField with | .arr l => l | _ => []) ∧
      ((∀ l, body.dataField ≠ .arr l) → r.data = []) ∧
      r.totalLeads
        = (if body.totalLeadsField.truthy then body.totalLeadsField
           else .num 0) ∧
      ((body.totalLeadsField.isNum || !body.totalLeadsField.truthy) = true →
        r.totalLeads.isNum = true) := by
  have hkeep := validateAuthToken_true_keeps (some tok) nowMs hval
  have hid' : (u.id == "") = false := by simpa using hid
  have heq : fetchLeads (some u) filters searchText pagination options
      (some tok) nowMs (.ok body)
      = .ok { data := match body.dataField with | .arr l => l | _ => []
              totalLeads := jsOrJ body.totalLeadsField (.num 0) } := by
    simp only [fetchLeads, hid', Bool.false_eq_true, if_false, hval,
      Bool.not_true, hkeep, createAuthHeaders]
  refine ⟨_, heq, rfl, ?_, rfl, ?_⟩
  · intro hna
    cases hd : body.dataField <;> simp
    exact absurd hd (hna _)
  · intro hnum
    show (jsOrJ body.totalLeadsField (.num 0)).isNum = true
    unfold jsOrJ
    by_cases ht : body.totalLeadsField.truthy
    · rcases Bool.or_eq_true _ _ |>.mp hnum with hn | hf
      · simp [ht, hn]
      · simp [ht] at hf
    · simp [ht, JValue.isNum]

/-- Witness for C10 amended at a concrete input: a 2xx body whose `data`
field is the string `"oops"` (not an array) and whose `totalLeads` field
is absent normalizes to the empty list and the number 0. -/
theorem leads_normalization_amended_witness :
    ∃ r, fetchLeads (some { id := "u1", role := "agent" }) (sampleFilters [])
        "" ⟨0, 10⟩ {} (some sampleValidToken) 2000000
        (.ok { dataField := .str "oops", totalLeadsField := .undef })
      = .ok r ∧ r.data = [] ∧ r.totalLeads.isNum = true := by
  obtain ⟨r, heq, _, hempty, _, hnum⟩ := leads_normalization_amended
    { id := "u1", role := "agent" } (sampleFilters []) "" ⟨0, 10⟩ {}
    sampleValidToken 2000000
    { dataField := .str "oops", totalLeadsField := .undef } rfl (by decide)
  exact ⟨r, heq, hempty (fun l h => JValue.noConfusion h), hnum rfl⟩

/-- The subordinate-node construction inlined in
`transformAgentsDataToTreeSelect` (src/services/api.ts:327-337), factored
out for reasoning (it unfolds definitionally to the inline lambda):
identity fields are copied, and a subordinate that itself has
subordinates takes its children from
`transformAgentsDataToTreeSelect([subordinate])[0].children`. -/
def subordinateNode (sub : AgentRow) : AgentNode :=
  AgentNode.mk sub.rowId sub.username sub.username
    sub.email sub.personalemail sub.isVerified
    (match sub.subordinates with
     | none => none
     | some _ =>
       match transformAgentsDataToTreeSelect [sub] with
       | n :: _ => n.children
       | [] => none)

/-- Unfolding of the transform on a cons cell, with the `attach` plumbing
eliminated: the head row becomes a top-level node whose children (when the
`subordinates` field is present) are the subordinate nodes. -/
theorem transform_cons (rowId username : String) (em pe : Option String)
    (iv : Option Bool) (subs : Option (List AgentRow)) (rest : List AgentRow) :
    transformAgentsDataToTreeSelect (.mk rowId username em pe iv subs :: rest)
      = AgentNode.mk rowId username username none none none
          (subs.map fun l => l.map subordinateNode)
        :: transformAgentsDataToTreeSelect rest := by
  cases subs with
  | none => simp [transformAgentsDataToTreeSelect]
  | some l =>
    simp only [transformAgentsDataToTreeSelect, Option.map]
    congr 2
    exact congrArg some (List.attach_map_val l subordinateNode)

/-- Skeleton of a row: its `subordinates` nesting, attach eliminated. -/
theorem agentRow_skel_eq (rowId username : String) (em pe : Option String)
    (iv : Option Bool) (subs : Option (List AgentRow)) :
    AgentRow.skel (.mk rowId username em pe iv subs)
      = .mk (subs.map fun l => l.map AgentRow.skel) := by
  cases subs with
  | none => simp [AgentRow.skel]
  | some l =>
    simp only [AgentRow.skel, Option.map]
    congr 2
    exact List.attach_map_val l AgentRow.skel

/-- Skeleton of a node: its `children` nesting, attach eliminated. -/
theorem agentNode_skel_eq (v t lb : String) (em pe : Option String)
    (iv : Option Bool) (children : Option (List AgentNode)) :
    AgentNode.skel (.mk v t lb em pe iv children)
      = .mk (children.map fun l => l.map AgentNode.skel) := by
  cases children with
  | none => simp [AgentNode.skel]
  | some l =>
    simp only [AgentNode.skel, Option.map]
    congr 2
    exact List.attach_map_val l AgentNode.skel

/-- Bounded-size induction step: a subordinate node has the same
skeleton as the row it was built from. -/
theorem skel_subordinateNode_bounded : ∀ (n : Nat) (sub : AgentRow),
    sizeOf sub ≤ n → AgentNode.skel (subordinateNode sub) = AgentRow.skel sub := by
  intro n
  induction n with
  | zero =>
    intro sub hle
    exfalso
    obtain ⟨a, b, c, d, e, f⟩ := sub
    simp only [AgentRow.mk.sizeOf_spec] at hle
    omega
  | succ n ih =>
    intro sub hle
    obtain ⟨srid, sun, sem, spe, siv, ssubs⟩ := sub
    cases ssubs with
    | none =>
      show AgentNode.skel (AgentNode.mk srid sun sun sem spe siv none)
        = AgentRow.skel (.mk srid sun sem spe siv none)
      rw [agentNode_skel_eq, agentRow_skel_eq]
      rfl
    | some m =>
      have hsub : subordinateNode (.mk srid sun sem spe siv (some m))
          = AgentNode.mk srid sun sun sem spe siv
              (some (m.map subordinateNode)) := by
        show AgentNode.mk srid sun sun sem spe siv
            (match transformAgentsDataToTreeSelect [.mk srid sun sem spe siv (some m)] with
             | n :: _ => n.children
             | [] => none) = _
        rw [transform_cons]
        rfl
      rw [hsub, agentNode_skel_eq, agentRow_skel_eq]
      simp only [Option.map, List.map_map]
      congr 2
      apply List.map_eq_map_iff.mpr
      intro s2 hs2
      have hsz := List.sizeOf_lt_of_mem hs2
      have hszm : sizeOf m ≤ n := by
        simp only [AgentRow.mk.sizeOf_spec, Option.some.sizeOf_spec] at hle
        omega
      exact ih s2 (by omega)

/-- The transform of the empty row list is empty. -/
theorem transform_nil : transformAgentsDataToTreeSelect [] = [] := by
  simp [transformAgentsDataToTreeSelect]

/-- A subordinate node has the same skeleton as its source row. -/
theorem skel_subordinateNode (sub : AgentRow) :
    AgentNode.skel (subordinateNode sub) = AgentRow.skel sub :=
  skel_subordinateNode_bounded (sizeOf sub) sub le_rfl

/-- The transform preserves the full nesting skeleton — and hence the
full depth — of the hierarchy, including the absent-versus-empty
distinction of each `children`/`subordinates` field. -/
theorem transform_map_skel (data : List AgentRow) :
    (transformAgentsDataToTreeSelect data).map AgentNode.skel
      = data.map AgentRow.skel := by
  induction data with
  | nil => rw [transform_nil]; rfl
  | cons r rest ih =>
    obtain ⟨rowId, username, em, pe, iv, subs⟩ := r
    rw [transform_cons]
    simp only [List.map_cons, ih]
    congr 1
    rw [agentNode_skel_eq, agentRow_skel_eq]
    cases subs with
    | none => rfl
    | some l =>
      simp only [Option.map, List.map_map]
      congr 2
      apply List.map_eq_map_iff.mpr
      intro sub _
      exact skel_subordinateNode sub

/-- The transform maps rows to nodes one for one. -/
theorem transform_length (data : List AgentRow) :
    (transformAgentsDataToTreeSelect data).length = data.length := by
  induction data with
  | nil => rw [transform_nil]; rfl
  | cons r rest ih =>
    obtain ⟨rowId, username, em, pe, iv, subs⟩ := r
    rw [transform_cons]
    simp [ih]

/-- The i-th produced node carries the id of the i-th row as `value`, its
username as `title` and `label`, and has no `children` field when the row
has no `subordinates` field. -/
theorem transform_index (data : List AgentRow) (i : Nat) (h : i < data.length) :
    ∃ node, (transformAgentsDataToTreeSelect data)[i]? = some node ∧
      node.value = (data.get ⟨i, h⟩).rowId ∧
      node.title = (data.get ⟨i, h⟩).username ∧
      node.label = (data.get ⟨i, h⟩).username ∧
      ((data.get ⟨i, h⟩).subordinates = none → node.children = none) := by
  induction data generalizing i with
  | nil => exact absurd h (by simp)
  | cons r rest ih =>
    obtain ⟨rowId, username, em, pe, iv, subs⟩ := r
    rw [transform_cons]
    cases i with
    | zero =>
      refine ⟨AgentNode.mk rowId username username none none none
          (subs.map fun l => l.map subordinateNode), ?_, ?_, ?_, ?_,
          fun hs => ?_⟩
      · exact List.getElem?_cons_zero
      · rfl
      · rfl
      · rfl
      · cases subs with
        | none => rfl
        | some l => exact Option.noConfusion hs
    | succ i =>
      have hi : i < rest.length := by simpa using h
      obtain ⟨node, hget, hv, ht, hl, hc⟩ := ih i hi
      exact ⟨node, by simpa using hget, hv, ht, hl, hc⟩

/-- C9: for every agent-row list (hierarchies expressed as an inductive
type are acyclic by construction), the tree transform maps each row, one
for one, to a node whose `value` is the id of the row and whose `title` and
`label` are its display name, preserves the full nesting skeleton — and
hence the full depth — of the subordinate hierarchy, and gives a row
with no `subordinates` field a node with no `children` value at all
(absence, not an empty list). -/
theorem agent_tree_transform_correct (data : List AgentRow) :
    (transformAgentsDataToTreeSelect data).length = data.length ∧
      (∀ (i : Nat) (h : i < data.length), ∃ node,
        (transformAgentsDataToTreeSelect data)[i]? = some node ∧
          node.value = (data.get ⟨i, h⟩).rowId ∧
          node.title = (data.get ⟨i, h⟩).username ∧
          node.label = (data.get ⟨i, h⟩).username ∧
          ((data.get ⟨i, h⟩).subordinates = none → node.children = none)) ∧
      (transformAgentsDataToTreeSelect data).map AgentNode.skel
        = data.map AgentRow.skel :=
  ⟨transform_length data, transform_index data, transform_map_skel data⟩

/-- A concrete two-level hierarchy (root → subordinate → subordinate). -/
def sampleHierarchy : List AgentRow :=
  [.mk "r1" "root" none none none
    (some [.mk "s1" "sub" (some "s@x.com") none (some true)
      (some [.mk "t1" "leaf" none none none none])])]

/-- A concrete single row with no `subordinates` field. -/
def sampleLeafRow : List AgentRow :=
  [.mk "l1" "lonely" none none none none]

/-- Witness for C9 at concrete inputs: the two-level hierarchy keeps its
length and skeleton, the root node carries id and display name, and the
subordinate-free row yields a node with `children` absent. -/
theorem agent_tree_transform_correct_witness :
    (transformAgentsDataToTreeSelect sampleHierarchy).length = 1 ∧
      (∃ node, (transformAgentsDataToTreeSelect sampleHierarchy)[0]?
          = some node ∧
        node.value = "r1" ∧ node.title = "root" ∧ node.label = "root") ∧
      (∃ node, (transformAgentsDataToTreeSelect sampleLeafRow)[0]?
          = some node ∧ node.children = none) ∧
      (transformAgentsDataToTreeSelect sampleHierarchy).map AgentNode.skel
        = sampleHierarchy.map AgentRow.skel := by
  refine ⟨(agent_tree_transform_correct sampleHierarchy).1, ?_, ?_,
    (agent_tree_transform_correct sampleHierarchy).2.2⟩
  · obtain ⟨node, hget, hv, ht, hl, _⟩ :=
      (agent_tree_transform_correct sampleHierarchy).2.1 0 (by decide)
    exact ⟨node, hget, hv, ht, hl⟩
  · obtain ⟨node, hget, _, _, _, hc⟩ :=
      (agent_tree_transform_correct sampleLeafRow).2.1 0 (by decide)
    exact ⟨node, hget, hc rfl⟩

/-- Witness for C6 at concrete inputs: with limit 2, a one-row page
yields `hasMore = false` and a two-row page yields `hasMore = true`. -/
theorem tags_hasMore_iff_full_page_witness :
    ¬ (fetchTagOptions 1 2 "" (some sampleValidToken)
        (.ok { data := [{ Tag := "A" }] })).hasMore = true ∧
      (fetchTagOptions 1 2 "" (some sampleValidToken)
        (.ok { data := [{ Tag := "A" }, { Tag := "B" }] })).hasMore = true := by
  constructor
  · intro h
    exact absurd ((tags_hasMore_iff_full_page 1 2 "" sampleValidToken
      { data := [{ Tag := "A" }] }).mp h) (by decide)
  · exact (tags_hasMore_iff_full_page 1 2 "" sampleValidToken
      { data := [{ Tag := "A" }, { Tag := "B" }] }).mpr (by decide)
